import Mathlib

/-!
Verification development for the evaluation core of the rhai scripting engine
(`src/engine.rs`).  The data model (Value, Scope, Engine, candidate lists), the
dispatcher `call_fn`, the dotted get/set helpers, the expression and statement
evaluators, and the entry points `eval_with_scope` / `consume_with_scope` are
embedded shallowly below.  Evaluation is defined by recursion on an explicit
fuel parameter (the source recurses on the call stack and may diverge in
`Loop`); every recursive call runs at one unit less fuel, and fuel exhaustion
is the `none` outcome, about which no claim is made.

Modelling conventions, matching `engine.rs`:
- `Box<Any>` values are modelled by the closed variant type `Value`; a
  downcast to `i64` / `bool` / `Vec<Box<Any>>` is a match on the
  corresponding constructor.  `f64` payloads are carried opaquely (the
  evaluator never computes with them).  The `VObj` arm stands for a
  host-registered foreign type (used by concrete engines in witnesses).
- Native functions receive their arguments as mutable borrows; this is
  modelled by natives returning the final values of all their arguments next
  to the call result, and by the evaluator writing those final values back
  wherever the source kept a live `&mut` (scope bindings, array slots,
  `this_ptr`).
- Out-of-bounds array indexing panics in the source ("host-defined" per the
  spec); the embedding totalises it with `List.getD` / `List.set` (claims
  about indexing are stated for in-range indices only).
- The `modules` feature is disabled: the embedding follows the
  `#[cfg(not(feature = "modules"))]` code paths, and `Scope` carries no
  `uses` records (they are dead without the feature).
- `eval_with_scope` / `consume_with_scope` take the already parsed
  `(Vec<Stmt>, Vec<FnDef>)` tree: lexing and parsing are external
  collaborators (spec section 1), and the claims concern only the
  post-parse behaviour.  The final `downcast::<T>` of `eval`'s result
  (`ErrorMismatchOutputType`) is after every behaviour the claims mention
  and is omitted.
-/

namespace Rhai

/-- Dynamic values (`Box<Any>` in the source).  `VFloat` carries its payload
opaquely.  `VObj` models a host-registered foreign type. -/
inductive Value where
  | VInt (i : Int)
  | VFloat (f : Int)
  | VStr (s : String)
  | VChar (c : Char)
  | VBool (b : Bool)
  | VUnit
  | VArr (a : List Value)
  | VObj (fields : List (String × Value))

/-- `EvalAltResult` from `engine.rs` (module-feature variants omitted). -/
inductive EvalAltResult where
  | ErrorFunctionNotFound
  | ErrorFunctionArgMismatch
  | ErrorFunctionCallNotSupported
  | ErrorIndexMismatch
  | ErrorIfGuardMismatch
  | ErrorVariableNotFound (name : String)
  | ErrorFunctionArityNotSupported
  | ErrorAssignmentToUnknownLHS
  | ErrorMismatchOutputType
  | ErrorCantOpenScriptFile
  | InternalErrorMalformedDotExpression
  | LoopBreak
  | Return (v : Value)

/-- Expression AST as consumed from the parser collaborator. -/
inductive Expr where
  | IntConst (i : Int)
  | FloatConst (f : Int)
  | StringConst (s : String)
  | CharConst (c : Char)
  | Identifier (id : String)
  | Index (id : String) (idx : Expr)
  | Assignment (lhs rhs : Expr)
  | Dot (lhs rhs : Expr)
  | Array (contents : List Expr)
  | FnCall (name : String) (args : List Expr)
  | TrueConst
  | FalseConst

/-- Statement AST (`Use` is module-feature only and omitted). -/
inductive Stmt where
  | Expr (e : Expr)
  | Block (b : List Stmt)
  | If (guard : Expr) (body : Stmt)
  | IfElse (guard : Expr) (body els : Stmt)
  | While (guard : Expr) (body : Stmt)
  | Loop (body : Stmt)
  | Break
  | Return
  | ReturnWithVal (e : Expr)
  | Var (name : String) (init : Option Expr)

/-- A user-defined script function. -/
structure FnDef where
  name : String
  params : List String
  body : Stmt

/-- A dispatch candidate.  `ExternalFn arity f` stands for the source's
`ExternalFn0` .. `ExternalFn6`: `f` receives the argument values (mutable
borrows in the source) and returns the call result together with the final
values of the arguments (their state after any in-place mutation). -/
inductive FnType where
  | ExternalFn (arity : Nat) (f : List Value → Except EvalAltResult Value × List Value)
  | InternalFn (f : FnDef)

/-- The engine: a map from names to ordered candidate lists
(`HashMap<String, Vec<FnType>>`). -/
structure Engine where
  fns : List (String × List FnType)

/-- The variable scope: an ordered stack of named bindings. -/
structure Scope where
  symbols : List (String × Value)

def Scope.len (sc : Scope) : Nat := sc.symbols.length

def Scope.push (sc : Scope) (p : String × Value) : Scope := ⟨sc.symbols ++ [p]⟩

/-- `while scope.len() > prev { scope.pop(); }` — pop from the back down to
length `n`. -/
def Scope.truncateTo (sc : Scope) (n : Nat) : Scope := ⟨sc.symbols.take n⟩

def Scope.names (sc : Scope) : List String := sc.symbols.map Prod.fst

/-- Index of the last occurrence of `id` in a name list: the reverse scan
`scope.iter_mut().rev()` of the source stops at the binding this index
denotes.  Only binding names matter for resolution. -/
def lookupIdxNames : List String → String → Option Nat
  | [], _ => none
  | n :: rest, id =>
    match lookupIdxNames rest id with
    | some j => some (j + 1)
    | none => if n == id then some 0 else none

/-- Position of the binding the reverse scan of the source resolves `id` to. -/
def Scope.lookupIdx (sc : Scope) (id : String) : Option Nat :=
  lookupIdxNames sc.names id

def Value.isArr : Value → Bool
  | .VArr _ => true
  | _ => false

/-- Index of the last binding named `id` whose value is an array.  The
array write-back scans of `get_dot_val` / `set_dot_val` keep scanning past a
name match whose value fails the `Vec` downcast (the `if let` there has no
`else`), so they resolve to this index. -/
def lookupIdxArrAux : List (String × Value) → String → Option Nat
  | [], _ => none
  | p :: rest, id =>
    match lookupIdxArrAux rest id with
    | some j => some (j + 1)
    | none => if p.1 == id && p.2.isArr then some 0 else none

def Scope.lookupIdxArr (sc : Scope) (id : String) : Option Nat :=
  lookupIdxArrAux sc.symbols id

def Scope.getVal (sc : Scope) (i : Nat) : Value :=
  (sc.symbols.getD i ("", .VUnit)).2

/-- Overwrite the value stored at position `i`, keeping the binding name
(`*val = t` through the `&mut` of the scan). -/
def Scope.setVal (sc : Scope) (i : Nat) (v : Value) : Scope :=
  ⟨sc.symbols.set i ((sc.symbols.getD i ("", .VUnit)).1, v)⟩

/-- `self.fns.get(name)`. -/
def Engine.lookup (eng : Engine) (name : String) : Option (List FnType) :=
  (eng.fns.find? (fun p => p.1 == name)).map (fun p => p.2)

/-- `self.fns.entry(name).or_insert_with(Vec::new).push(c)`. -/
def addCandidate : List (String × List FnType) → String → FnType → List (String × List FnType)
  | [], name, c => [(name, [c])]
  | (n, cs) :: rest, name, c =>
    if n == name then (n, cs ++ [c]) :: rest else (n, cs) :: addCandidate rest name c

def Engine.installFn (eng : Engine) (fd : FnDef) : Engine :=
  ⟨addCandidate eng.fns fd.name (.InternalFn fd)⟩

/-- The evaluator at one fuel level: each field is one function of
`engine.rs`, and every recursive call goes through the previous level `I`.
`call_fn_loop` is the candidate `for`-loop shared by the seven arity branches
of `call_fn` (the branch for `k` arguments considers `ExternalFn` candidates
of arity `k` and every `InternalFn`); `clone_args` is the block of
`call_fn("clone", ...)` calls an `InternalFn` candidate performs on its
arguments; `eval_expr_list` is the left-to-right argument/element evaluation
with `?`-propagation; `eval_block_stmts` is the statement loop of
`Stmt::Block` (and of the entry points). -/
structure Interp where
  call_fn : Engine → String → List Value → Option (Except EvalAltResult Value × List Value)
  call_fn_loop : Engine → Nat → List FnType → List Value →
    Option (Except EvalAltResult Value × List Value)
  clone_args : Engine → List Value →
    Option (Except EvalAltResult (List Value) × List Value)
  eval_expr : Engine → Scope → Expr → Option (Except EvalAltResult Value × Scope)
  eval_expr_list : Engine → Scope → List Expr →
    Option (Except EvalAltResult (List Value) × Scope)
  get_dot_val_helper : Engine → Scope → Value → Expr →
    Option (Except EvalAltResult Value × Scope × Value)
  get_dot_val : Engine → Scope → Expr → Expr →
    Option (Except EvalAltResult Value × Scope)
  set_dot_val_helper : Engine → Value → Expr → Value →
    Option (Except EvalAltResult Value × Value)
  set_dot_val : Engine → Scope → Expr → Expr → Value →
    Option (Except EvalAltResult Value × Scope)
  eval_stmt : Engine → Scope → Stmt → Option (Except EvalAltResult Value × Scope)
  eval_block_stmts : Engine → Scope → List Stmt →
    Option (Except EvalAltResult Value × Scope)

def interpStep (I : Interp) : Interp where
  call_fn := fun eng name args =>
    match eng.lookup name with
    | some vf => I.call_fn_loop eng args.length vf args
    | none => some (.error .ErrorFunctionNotFound, args)
  call_fn_loop := fun eng k cands args =>
    match cands with
    | [] => some (.error .ErrorFunctionArgMismatch, args)
    | c :: rest =>
      match c with
      | .ExternalFn a f =>
        if a == k then
          match f args with
          | (.ok v, args2) => some (.ok v, args2)
          | (.error _, args2) => I.call_fn_loop eng k rest args2
        else I.call_fn_loop eng k rest args
      | .InternalFn fd =>
        if fd.params.length != k then some (.error .ErrorFunctionArgMismatch, args)
        else
          match I.clone_args eng args with
          | none => none
          | some (.error _, args2) => some (.error .ErrorFunctionArgMismatch, args2)
          | some (.ok cloned, args2) =>
            match I.eval_stmt eng ⟨fd.params.zip cloned⟩ fd.body with
            | none => none
            | some (.error (.Return x), _) => some (.ok x, args2)
            | some (r, _) => some (r, args2)
  clone_args := fun eng args =>
    match args with
    | [] => some (.ok [], [])
    | a :: rest =>
      match I.call_fn eng "clone" [a] with
      | none => none
      | some (r, cargs) =>
        match I.clone_args eng rest with
        | none => none
        | some (rs, rest2) =>
          match r, rs with
          | .ok c, .ok cs => some (.ok (c :: cs), cargs.headD a :: rest2)
          | _, _ => some (.error .ErrorFunctionArgMismatch, cargs.headD a :: rest2)
  eval_expr := fun eng scope e =>
    match e with
    | .IntConst i => some (.ok (.VInt i), scope)
    | .FloatConst f => some (.ok (.VFloat f), scope)
    | .StringConst s => some (.ok (.VStr s), scope)
    | .CharConst c => some (.ok (.VChar c), scope)
    | .Identifier id =>
      match scope.lookupIdx id with
      | none => some (.error (.ErrorVariableNotFound id), scope)
      | some i =>
        match I.call_fn eng "clone" [scope.getVal i] with
        | none => none
        | some (r, args2) => some (r, scope.setVal i (args2.headD (scope.getVal i)))
    | .Index id idxRaw =>
      match I.eval_expr eng scope idxRaw with
      | none => none
      | some (.error e1, sc1) => some (.error e1, sc1)
      | some (.ok idxv, sc1) =>
        match sc1.lookupIdx id with
        | none => some (.error (.ErrorVariableNotFound id), sc1)
        | some i =>
          match idxv with
          | .VInt n =>
            match sc1.getVal i with
            | .VArr arr =>
              match I.call_fn eng "clone" [arr.getD n.toNat .VUnit] with
              | none => none
              | some (r, args2) =>
                some (r, sc1.setVal i
                  (.VArr (arr.set n.toNat (args2.headD (arr.getD n.toNat .VUnit)))))
            | _ => some (.error .ErrorIndexMismatch, sc1)
          | _ => some (.error .ErrorIndexMismatch, sc1)
    | .Assignment lhsE rhsE =>
      match I.eval_expr eng scope rhsE with
      | none => none
      | some (.error e1, sc1) => some (.error e1, sc1)
      | some (.ok rhsVal, sc1) =>
        match lhsE with
        | .Identifier n =>
          match sc1.lookupIdx n with
          | some i => some (.ok .VUnit, sc1.setVal i rhsVal)
          | none => some (.error (.ErrorVariableNotFound n), sc1)
        | .Index id2 idxRaw =>
          match I.eval_expr eng sc1 idxRaw with
          | none => none
          | some (.error e1, sc2) => some (.error e1, sc2)
          | some (.ok idxv, sc2) =>
            match sc2.lookupIdx id2 with
            | none => some (.error (.ErrorVariableNotFound id2), sc2)
            | some i =>
              match idxv with
              | .VInt n =>
                match sc2.getVal i with
                | .VArr arr => some (.ok .VUnit, sc2.setVal i (.VArr (arr.set n.toNat rhsVal)))
                | _ => some (.error .ErrorIndexMismatch, sc2)
              | _ => some (.error .ErrorIndexMismatch, sc2)
        | .Dot dlhs drhs => I.set_dot_val eng sc1 dlhs drhs rhsVal
        | _ => some (.error .ErrorAssignmentToUnknownLHS, sc1)
    | .Dot lhs rhs => I.get_dot_val eng scope lhs rhs
    | .Array contents =>
      match I.eval_expr_list eng scope contents with
      | none => none
      | some (.error e1, sc1) => some (.error e1, sc1)
      | some (.ok vals, sc1) => some (.ok (.VArr vals), sc1)
    | .FnCall name argExprs =>
      if argExprs.length ≤ 6 then
        match I.eval_expr_list eng scope argExprs with
        | none => none
        | some (.error e1, sc1) => some (.error e1, sc1)
        | some (.ok vals, sc1) =>
          match I.call_fn eng name vals with
          | none => none
          | some (r, _) => some (r, sc1)
      else some (.error .ErrorFunctionCallNotSupported, scope)
    | .TrueConst => some (.ok (.VBool true), scope)
    | .FalseConst => some (.ok (.VBool false), scope)
  eval_expr_list := fun eng scope es =>
    match es with
    | [] => some (.ok [], scope)
    | e :: rest =>
      match I.eval_expr eng scope e with
      | none => none
      | some (.error e1, sc1) => some (.error e1, sc1)
      | some (.ok v, sc1) =>
        match I.eval_expr_list eng sc1 rest with
        | none => none
        | some (.error e1, sc2) => some (.error e1, sc2)
        | some (.ok vs, sc2) => some (.ok (v :: vs), sc2)
  get_dot_val_helper := fun eng scope thisPtr rhs =>
    match rhs with
    | .FnCall name argExprs =>
      if argExprs.length ≤ 5 then
        match I.eval_expr_list eng scope argExprs with
        | none => none
        | some (.error e1, sc1) => some (.error e1, sc1, thisPtr)
        | some (.ok vals, sc1) =>
          match I.call_fn eng name (thisPtr :: vals) with
          | none => none
          | some (r, args2) => some (r, sc1, args2.headD thisPtr)
      else some (.error .ErrorFunctionCallNotSupported, scope, thisPtr)
    | .Identifier id =>
      match I.call_fn eng ("get$" ++ id) [thisPtr] with
      | none => none
      | some (r, args2) => some (r, scope, args2.headD thisPtr)
    | .Index id idxRaw =>
      match I.eval_expr eng scope idxRaw with
      | none => none
      | some (.error e1, sc1) => some (.error e1, sc1, thisPtr)
      | some (.ok idxv, sc1) =>
        match I.call_fn eng ("get$" ++ id) [thisPtr] with
        | none => none
        | some (.error _, args2) =>
          some (.error .ErrorIndexMismatch, sc1, args2.headD thisPtr)
        | some (.ok val, args2) =>
          match idxv with
          | .VInt n =>
            match val with
            | .VArr arr =>
              match I.call_fn eng "clone" [arr.getD n.toNat .VUnit] with
              | none => none
              | some (r, _) => some (r, sc1, args2.headD thisPtr)
            | _ => some (.error .ErrorIndexMismatch, sc1, args2.headD thisPtr)
          | _ => some (.error .ErrorIndexMismatch, sc1, args2.headD thisPtr)
    | .Dot innerLhs innerRhs =>
      match innerLhs with
      | .Identifier id =>
        match I.call_fn eng ("get$" ++ id) [thisPtr] with
        | none => none
        | some (.error e1, args2) => some (.error e1, scope, args2.headD thisPtr)
        | some (.ok v, args2) =>
          match I.get_dot_val_helper eng scope v innerRhs with
          | none => none
          | some (r, sc1, _) => some (r, sc1, args2.headD thisPtr)
      | _ => some (.error .InternalErrorMalformedDotExpression, scope, thisPtr)
    | _ => some (.error .InternalErrorMalformedDotExpression, scope, thisPtr)
  get_dot_val := fun eng scope dotLhs dotRhs =>
    match dotLhs with
    | .Identifier id =>
      match scope.lookupIdx id with
      | none => some (.error (.ErrorVariableNotFound id), scope)
      | some i =>
        match I.call_fn eng "clone" [scope.getVal i] with
        | none => none
        | some (.error e1, args2) =>
          some (.error e1, scope.setVal i (args2.headD (scope.getVal i)))
        | some (.ok t, args2) =>
          match I.get_dot_val_helper eng
              (scope.setVal i (args2.headD (scope.getVal i))) t dotRhs with
          | none => none
          | some (r, sc2, t2) =>
            match sc2.lookupIdx id with
            | some j => some (r, sc2.setVal j t2)
            | none => some (r, sc2)
    | .Index id idxRaw =>
      match I.eval_expr eng scope idxRaw with
      | none => none
      | some (.error e1, sc1) => some (.error e1, sc1)
      | some (.ok idxv, sc1) =>
        match idxv with
        | .VInt n =>
          match sc1.lookupIdx id with
          | none => some (.error (.ErrorVariableNotFound id), sc1)
          | some i =>
            match sc1.getVal i with
            | .VArr arr =>
              match I.call_fn eng "clone" [arr.getD n.toNat .VUnit] with
              | none => none
              | some (.error e1, args2) =>
                some (.error e1, sc1.setVal i
                  (.VArr (arr.set n.toNat (args2.headD (arr.getD n.toNat .VUnit)))))
              | some (.ok t, args2) =>
                match I.get_dot_val_helper eng
                    (sc1.setVal i
                      (.VArr (arr.set n.toNat (args2.headD (arr.getD n.toNat .VUnit)))))
                    t dotRhs with
                | none => none
                | some (r, sc3, t2) =>
                  match sc3.lookupIdxArr id with
                  | some j =>
                    match sc3.getVal j with
                    | .VArr arr2 => some (r, sc3.setVal j (.VArr (arr2.set n.toNat t2)))
                    | _ => some (r, sc3)
                  | none => some (r, sc3)
            | _ => some (.error .ErrorIndexMismatch, sc1)
        | _ => some (.error .ErrorIndexMismatch, sc1)
    | _ => some (.error .InternalErrorMalformedDotExpression, scope)
  set_dot_val_helper := fun eng thisPtr dotRhs sourceVal =>
    match dotRhs with
    | .Identifier id =>
      match I.call_fn eng ("set$" ++ id) [thisPtr, sourceVal] with
      | none => none
      | some (r, args2) => some (r, args2.headD thisPtr)
    | .Dot innerLhs innerRhs =>
      match innerLhs with
      | .Identifier id =>
        match I.call_fn eng ("get$" ++ id) [thisPtr] with
        | none => none
        | some (.error e1, args2) => some (.error e1, args2.headD thisPtr)
        | some (.ok v, args2) =>
          match I.set_dot_val_helper eng v innerRhs sourceVal with
          | none => none
          | some (.error e1, _) => some (.error e1, args2.headD thisPtr)
          | some (.ok _, v2) =>
            match I.call_fn eng ("set$" ++ id) [args2.headD thisPtr, v2] with
            | none => none
            | some (r, args3) => some (r, args3.headD (args2.headD thisPtr))
      | _ => some (.error .InternalErrorMalformedDotExpression, thisPtr)
    | _ => some (.error .InternalErrorMalformedDotExpression, thisPtr)
  set_dot_val := fun eng scope dotLhs dotRhs sourceVal =>
    match dotLhs with
    | .Identifier id =>
      match scope.lookupIdx id with
      | none => some (.error .ErrorAssignmentToUnknownLHS, scope)
      | some i =>
        match I.call_fn eng "clone" [scope.getVal i] with
        | none => none
        | some (.error _, args2) =>
          some (.error (.ErrorVariableNotFound id),
            scope.setVal i (args2.headD (scope.getVal i)))
        | some (.ok t, args2) =>
          match I.set_dot_val_helper eng t dotRhs sourceVal with
          | none => none
          | some (r, t2) =>
            match (scope.setVal i (args2.headD (scope.getVal i))).lookupIdx id with
            | some j => some (r, (scope.setVal i (args2.headD (scope.getVal i))).setVal j t2)
            | none => some (r, scope.setVal i (args2.headD (scope.getVal i)))
    | .Index id idxRaw =>
      match I.eval_expr eng scope idxRaw with
      | none => none
      | some (.error e1, sc1) => some (.error e1, sc1)
      | some (.ok idxv, sc1) =>
        match idxv with
        | .VInt n =>
          match sc1.lookupIdx id with
          | none => some (.error (.ErrorVariableNotFound id), sc1)
          | some i =>
            match sc1.getVal i with
            | .VArr arr =>
              match I.call_fn eng "clone" [arr.getD n.toNat .VUnit] with
              | none => none
              | some (.error e1, args2) =>
                some (.error e1, sc1.setVal i
                  (.VArr (arr.set n.toNat (args2.headD (arr.getD n.toNat .VUnit)))))
              | some (.ok t, args2) =>
                match I.set_dot_val_helper eng t dotRhs sourceVal with
                | none => none
                | some (r, t2) =>
                  match (sc1.setVal i
                      (.VArr (arr.set n.toNat
                        (args2.headD (arr.getD n.toNat .VUnit))))).lookupIdxArr id with
                  | some j =>
                    match (sc1.setVal i
                        (.VArr (arr.set n.toNat
                          (args2.headD (arr.getD n.toNat .VUnit))))).getVal j with
                    | .VArr arr2 =>
                      some (r, (sc1.setVal i
                        (.VArr (arr.set n.toNat
                          (args2.headD (arr.getD n.toNat .VUnit))))).setVal j
                            (.VArr (arr2.set n.toNat t2)))
                    | _ => some (r, sc1.setVal i
                        (.VArr (arr.set n.toNat (args2.headD (arr.getD n.toNat .VUnit)))))
                  | none => some (r, sc1.setVal i
                      (.VArr (arr.set n.toNat (args2.headD (arr.getD n.toNat .VUnit)))))
            | _ => some (.error .ErrorIndexMismatch, sc1)
        | _ => some (.error .ErrorIndexMismatch, sc1)
    | _ => some (.error .InternalErrorMalformedDotExpression, scope)
  eval_stmt := fun eng scope s =>
    match s with
    | .Expr e => I.eval_expr eng scope e
    | .Block b =>
      match I.eval_block_stmts eng scope b with
      | none => none
      | some (r, sc1) => some (r, sc1.truncateTo scope.len)
    | .If guard body =>
      match I.eval_expr eng scope guard with
      | none => none
      | some (.error e1, sc1) => some (.error e1, sc1)
      | some (.ok g, sc1) =>
        match g with
        | .VBool true => I.eval_stmt eng sc1 body
        | .VBool false => some (.ok .VUnit, sc1)
        | _ => some (.error .ErrorIfGuardMismatch, sc1)
    | .IfElse guard body els =>
      match I.eval_expr eng scope guard with
      | none => none
      | some (.error e1, sc1) => some (.error e1, sc1)
      | some (.ok g, sc1) =>
        match g with
        | .VBool true => I.eval_stmt eng sc1 body
        | .VBool false => I.eval_stmt eng sc1 els
        | _ => some (.error .ErrorIfGuardMismatch, sc1)
    | .While guard body =>
      match I.eval_expr eng scope guard with
      | none => none
      | some (.error e1, sc1) => some (.error e1, sc1)
      | some (.ok g, sc1) =>
        match g with
        | .VBool true =>
          match I.eval_stmt eng sc1 body with
          | none => none
          | some (.error .LoopBreak, sc2) => some (.ok .VUnit, sc2)
          | some (.error e1, sc2) => some (.error e1, sc2)
          | some (.ok _, sc2) => I.eval_stmt eng sc2 (.While guard body)
        | .VBool false => some (.ok .VUnit, sc1)
        | _ => some (.error .ErrorIfGuardMismatch, sc1)
    | .Loop body =>
      match I.eval_stmt eng scope body with
      | none => none
      | some (.error .LoopBreak, sc1) => some (.ok .VUnit, sc1)
      | some (.error e1, sc1) => some (.error e1, sc1)
      | some (.ok _, sc1) => I.eval_stmt eng sc1 (.Loop body)
    | .Break => some (.error .LoopBreak, scope)
    | .Return => some (.error (.Return .VUnit), scope)
    | .ReturnWithVal e =>
      match I.eval_expr eng scope e with
      | none => none
      | some (.error e1, sc1) => some (.error e1, sc1)
      | some (.ok v, sc1) => some (.error (.Return v), sc1)
    | .Var name init =>
      match init with
      | some v =>
        match I.eval_expr eng scope v with
        | none => none
        | some (.error e1, sc1) => some (.error e1, sc1)
        | some (.ok iv, sc1) => some (.ok .VUnit, sc1.push (name, iv))
      | none => some (.ok .VUnit, scope.push (name, .VUnit))
  eval_block_stmts := fun eng scope ss =>
    match ss with
    | [] => some (.ok .VUnit, scope)
    | s :: rest =>
      match I.eval_stmt eng scope s with
      | none => none
      | some (.error e1, sc1) => some (.error e1, sc1)
      | some (.ok v, sc1) =>
        match rest with
        | [] => some (.ok v, sc1)
        | _ => I.eval_block_stmts eng sc1 rest

/-- The evaluator, indexed by fuel.  Fuel `0` answers `none` everywhere. -/
def interp : Nat → Interp
  | 0 =>
    ⟨fun _ _ _ => none, fun _ _ _ _ => none, fun _ _ => none, fun _ _ _ => none,
     fun _ _ _ => none, fun _ _ _ _ => none, fun _ _ _ _ => none, fun _ _ _ _ => none,
     fun _ _ _ _ _ => none, fun _ _ _ => none, fun _ _ _ => none⟩
  | Nat.succ f => interpStep (interp f)

/-- `Engine::call_fn` (dispatch); the argument list is the `Some`-prefix of
the source's six `Option` parameters. -/
def call_fn (fuel : Nat) (eng : Engine) (name : String) (args : List Value) :
    Option (Except EvalAltResult Value × List Value) :=
  (interp fuel).call_fn eng name args

/-- The candidate `for`-loop inside an arity branch of `call_fn`. -/
def call_fn_loop (fuel : Nat) (eng : Engine) (k : Nat) (cands : List FnType)
    (args : List Value) : Option (Except EvalAltResult Value × List Value) :=
  (interp fuel).call_fn_loop eng k cands args

/-- The per-argument `call_fn("clone", ...)` block of an `InternalFn` call. -/
def clone_args (fuel : Nat) (eng : Engine) (args : List Value) :
    Option (Except EvalAltResult (List Value) × List Value) :=
  (interp fuel).clone_args eng args

/-- `Engine::eval_expr`. -/
def eval_expr (fuel : Nat) (eng : Engine) (scope : Scope) (e : Expr) :
    Option (Except EvalAltResult Value × Scope) :=
  (interp fuel).eval_expr eng scope e

/-- Left-to-right evaluation of an expression list with `?`-propagation. -/
def eval_expr_list (fuel : Nat) (eng : Engine) (scope : Scope) (es : List Expr) :
    Option (Except EvalAltResult (List Value) × Scope) :=
  (interp fuel).eval_expr_list eng scope es

/-- `Engine::get_dot_val_helper`. -/
def get_dot_val_helper (fuel : Nat) (eng : Engine) (scope : Scope) (thisPtr : Value)
    (dotRhs : Expr) : Option (Except EvalAltResult Value × Scope × Value) :=
  (interp fuel).get_dot_val_helper eng scope thisPtr dotRhs

/-- `Engine::get_dot_val`. -/
def get_dot_val (fuel : Nat) (eng : Engine) (scope : Scope) (dotLhs dotRhs : Expr) :
    Option (Except EvalAltResult Value × Scope) :=
  (interp fuel).get_dot_val eng scope dotLhs dotRhs

/-- `Engine::set_dot_val_helper`. -/
def set_dot_val_helper (fuel : Nat) (eng : Engine) (thisPtr : Value) (dotRhs : Expr)
    (sourceVal : Value) : Option (Except EvalAltResult Value × Value) :=
  (interp fuel).set_dot_val_helper eng thisPtr dotRhs sourceVal

/-- `Engine::set_dot_val`. -/
def set_dot_val (fuel : Nat) (eng : Engine) (scope : Scope) (dotLhs dotRhs : Expr)
    (sourceVal : Value) : Option (Except EvalAltResult Value × Scope) :=
  (interp fuel).set_dot_val eng scope dotLhs dotRhs sourceVal

/-- `Engine::eval_stmt`. -/
def eval_stmt (fuel : Nat) (eng : Engine) (scope : Scope) (s : Stmt) :
    Option (Except EvalAltResult Value × Scope) :=
  (interp fuel).eval_stmt eng scope s

/-- The statement loop of `Stmt::Block` (shared by the entry points). -/
def eval_block_stmts (fuel : Nat) (eng : Engine) (scope : Scope) (ss : List Stmt) :
    Option (Except EvalAltResult Value × Scope) :=
  (interp fuel).eval_block_stmts eng scope ss

/-- The `FnDef` installation loop of `eval_with_scope`: stop with
`ErrorFunctionArityNotSupported` at the first function of more than six
parameters, keeping the functions already installed. -/
def install_fns : Engine → List FnDef → Engine × Option EvalAltResult
  | eng, [] => (eng, none)
  | eng, fd :: rest =>
    if fd.params.length > 6 then (eng, some .ErrorFunctionArityNotSupported)
    else install_fns (eng.installFn fd) rest

/-- The `FnDef` installation loop of `consume_with_scope`: `return Ok(())`
at the first function of more than six parameters (the `Bool` records that
early return). -/
def install_fns_consume : Engine → List FnDef → Engine × Bool
  | eng, [] => (eng, false)
  | eng, fd :: rest =>
    if fd.params.length > 6 then (eng, true)
    else install_fns_consume (eng.installFn fd) rest

/-- `Engine::eval_with_scope`, from the parsed tree on (lexing/parsing are
external): install user functions, then run the statements, returning the
last statement's value (before the caller-side `downcast::<T>`).  The engine
is returned because installation mutates `self`. -/
def eval_with_scope (fuel : Nat) (eng : Engine) (scope : Scope)
    (tree : List Stmt × List FnDef) :
    Option (Except EvalAltResult Value × Engine × Scope) :=
  match install_fns eng tree.2 with
  | (eng1, some e) => some (.error e, eng1, scope)
  | (eng1, none) =>
    match eval_block_stmts fuel eng1 scope tree.1 with
    | none => none
    | some (.error e, sc1) => some (.error e, eng1, sc1)
    | some (.ok v, sc1) => some (.ok v, eng1, sc1)

/-- `Engine::consume_with_scope`, from the parsed tree on. -/
def consume_with_scope (fuel : Nat) (eng : Engine) (scope : Scope)
    (tree : List Stmt × List FnDef) :
    Option (Except EvalAltResult Unit × Engine × Scope) :=
  match install_fns_consume eng tree.2 with
  | (eng1, true) => some (.ok (), eng1, scope)
  | (eng1, false) =>
    match eval_block_stmts fuel eng1 scope tree.1 with
    | none => none
    | some (.error e, sc1) => some (.error e, eng1, sc1)
    | some (.ok _, sc1) => some (.ok (), eng1, sc1)

/-! ### Concrete host configurations used by witnesses and counterexamples

These model hosts that registered natives through `register_fn` /
`register_type` / `register_get_set`: an identity `clone` (the
`clone_helper` of `register_type`), integer `+` / `<` from the default
library, and `get$` / `set$` field accessors over the foreign `VObj` type. -/

/-- The `clone` native: `register_type`'s `clone_helper` (returns its
argument, mutates nothing). -/
def cloneFn : List Value → Except EvalAltResult Value × List Value
  | [v] => (.ok v, [v])
  | args => (.error .ErrorFunctionArgMismatch, args)

/-- Integer `+` as registered by the default library. -/
def addFn : List Value → Except EvalAltResult Value × List Value
  | [.VInt a, .VInt b] => (.ok (.VInt (a + b)), [.VInt a, .VInt b])
  | args => (.error .ErrorFunctionArgMismatch, args)

/-- Integer `<` as registered by the default library. -/
def ltFn : List Value → Except EvalAltResult Value × List Value
  | [.VInt a, .VInt b] => (.ok (.VBool (a < b)), [.VInt a, .VInt b])
  | args => (.error .ErrorFunctionArgMismatch, args)

/-- A small standard engine: `clone`, `+`, `<`. -/
def stdEngine : Engine :=
  ⟨[("clone", [.ExternalFn 1 cloneFn]),
    ("+", [.ExternalFn 2 addFn]),
    ("<", [.ExternalFn 2 ltFn])]⟩

/-- A field getter over `VObj` (what `register_get` installs under
`"get$" ++ field`). -/
def objGet (field : String) : List Value → Except EvalAltResult Value × List Value
  | [o] =>
    match o with
    | .VObj fs =>
      match fs.find? (fun p => p.1 == field) with
      | some p => (.ok p.2, [o])
      | none => (.error .ErrorFunctionArgMismatch, [o])
    | _ => (.error .ErrorFunctionArgMismatch, [o])
  | args => (.error .ErrorFunctionArgMismatch, args)

/-- A field setter over `VObj` (what `register_set` installs under
`"set$" ++ field`): mutates its receiver in place and returns unit. -/
def objSet (field : String) : List Value → Except EvalAltResult Value × List Value
  | [o, v] =>
    match o with
    | .VObj fs =>
      (.ok .VUnit, [.VObj (fs.map (fun p => if p.1 == field then (p.1, v) else p)), v])
    | _ => (.error .ErrorFunctionArgMismatch, [o, v])
  | args => (.error .ErrorFunctionArgMismatch, args)

/-- Engine with `clone` and accessors for fields `y` and `z`. -/
def objEngine : Engine :=
  ⟨[("clone", [.ExternalFn 1 cloneFn]),
    ("get$y", [.ExternalFn 1 (objGet "y")]),
    ("set$y", [.ExternalFn 2 (objSet "y")]),
    ("get$z", [.ExternalFn 1 (objGet "z")]),
    ("set$z", [.ExternalFn 2 (objSet "z")])]⟩

/-- A unary native that fails with a genuine runtime error (not an argument
type mismatch) and leaves its argument untouched. -/
def failingNative : List Value → Except EvalAltResult Value × List Value :=
  fun args => (.error .ErrorIndexMismatch, args)

/-- A unary native that always succeeds with `42`. -/
def okNative : List Value → Except EvalAltResult Value × List Value :=
  fun args => (.ok (.VInt 42), args)

/-- Engine whose "f" has a failing candidate before a succeeding one. -/
def retryEngine : Engine :=
  ⟨[("f", [.ExternalFn 1 failingNative, .ExternalFn 1 okNative])]⟩

/-- A getter that mutates its receiver (resets it to `VInt 99`) while
returning an empty object — legal for a registered native, which receives
its receiver as `&mut`. -/
def mutatingGet : List Value → Except EvalAltResult Value × List Value
  | [_] => (.ok (.VObj []), [.VInt 99])
  | args => (.error .ErrorFunctionArgMismatch, args)

/-- Engine with `clone` and a mutating `get$y`, but no `set$z`: a nested
dotted set through it fails after the receiver was already mutated. -/
def mutEngine : Engine :=
  ⟨[("clone", [.ExternalFn 1 cloneFn]),
    ("get$y", [.ExternalFn 1 mutatingGet])]⟩

/-- A script function with seven parameters (arity overflow). -/
def bigFn : FnDef := ⟨"big", ["a", "b", "c", "d", "e", "f", "g"], .Return⟩

/-- A zero-parameter script function. -/
def smallFn : FnDef := ⟨"small", [], .Return⟩

/-- The identity script function `fn id(a) { return a; }`. -/
def idFn : FnDef := ⟨"id", ["a"], .ReturnWithVal (.Identifier "a")⟩

/-- Scope with `x` bound to a two-level object whose `z` field is `0`. -/
def dotScope : Scope := ⟨[("x", .VObj [("y", .VObj [("z", .VInt 0)])])]⟩

/-- `dotScope` after `x.y.z = 7`. -/
def dotScopeAfter : Scope := ⟨[("x", .VObj [("y", .VObj [("z", .VInt 7)])])]⟩


/-! ### Basic facts about `Scope` operations -/

theorem List.map_fst_set (l : List (String × Value)) (i : Nat) (v : Value) :
    (l.set i ((l.getD i ("", .VUnit)).1, v)).map Prod.fst = l.map Prod.fst := by
  induction l generalizing i with
  | nil => simp
  | cons p t ih =>
    cases i with
    | zero => simp [List.getD]
    | succ j => simpa [List.getD] using ih j

theorem Scope.names_setVal (sc : Scope) (i : Nat) (v : Value) :
    (sc.setVal i v).names = sc.names :=
  List.map_fst_set sc.symbols i v

theorem Scope.names_push (sc : Scope) (p : String × Value) :
    (sc.push p).names = sc.names ++ [p.1] := by
  simp [Scope.push, Scope.names]

theorem Scope.names_truncateTo (sc : Scope) (n : Nat) :
    (sc.truncateTo n).names = sc.names.take n := by
  simp [Scope.truncateTo, Scope.names, List.map_take]

theorem Scope.names_length (sc : Scope) : sc.names.length = sc.len := by
  simp [Scope.names, Scope.len]

theorem Scope.lookupIdx_congr (sc1 sc2 : Scope) (id : String)
    (h : sc1.names = sc2.names) : sc1.lookupIdx id = sc2.lookupIdx id := by
  simp [Scope.lookupIdx, h]

theorem Scope.lookupIdx_setVal (sc : Scope) (i : Nat) (v : Value) (id : String) :
    (sc.setVal i v).lookupIdx id = sc.lookupIdx id :=
  Scope.lookupIdx_congr _ _ _ (Scope.names_setVal sc i v)

theorem List.take_length_append (l1 l2 : List String) :
    (l1 ++ l2).take l1.length = l1 := by
  induction l1 with
  | nil => simp
  | cons a t ih => simp [ih]

theorem extEq_trans {a b c : List String}
    (h1 : ∃ e1, b = a ++ e1) (h2 : ∃ e2, c = b ++ e2) : ∃ e3, c = a ++ e3 := by
  obtain ⟨e1, rfl⟩ := h1
  obtain ⟨e2, rfl⟩ := h2
  exact ⟨e1 ++ e2, by simp⟩

theorem extEq_refl (a : List String) : ∃ e1, a = a ++ e1 := ⟨[], by simp⟩

theorem lookupIdxNames_none (ys : List String) (id : String)
    (h : ∀ n ∈ ys, n ≠ id) : lookupIdxNames ys id = none := by
  induction ys with
  | nil => simp [lookupIdxNames]
  | cons y t ih =>
    have hy : y ≠ id := h y (by simp)
    have ht := ih (fun n hn => h n (by simp [hn]))
    simp [lookupIdxNames, ht, hy]

theorem lookupIdxNames_append_last (xs ys : List String) (id : String)
    (h : ∀ n ∈ ys, n ≠ id) :
    lookupIdxNames (xs ++ id :: ys) id = some xs.length := by
  induction xs with
  | nil => simp [lookupIdxNames, lookupIdxNames_none ys id h]
  | cons x t ih => simp [lookupIdxNames, ih]

theorem List.getD_append_cons (xs ys : List (String × Value)) (p : String × Value) :
    (xs ++ p :: ys).getD xs.length ("", .VUnit) = p := by
  induction xs with
  | nil => simp [List.getD]
  | cons q t ih => simpa [List.getD] using ih

/-! ### Scope-shape preservation

Every evaluator function only appends bindings to the scope it is given (or
rewrites binding values in place); `Block` additionally truncates back to
the entry length.  Hence the input scope's binding names are always a prefix
of the output scope's binding names.  Proven for all functions of one fuel
level simultaneously, by induction on fuel. -/



set_option maxHeartbeats 1000000

theorem interp_scope_ext (f : Nat) :
    (∀ eng sc e res scF, (interp f).eval_expr eng sc e = some (res, scF) →
      ∃ ext, scF.names = sc.names ++ ext)
  ∧ (∀ eng sc es res scF, (interp f).eval_expr_list eng sc es = some (res, scF) →
      ∃ ext, scF.names = sc.names ++ ext)
  ∧ (∀ eng sc t rhs res scF tF, (interp f).get_dot_val_helper eng sc t rhs = some (res, scF, tF) →
      ∃ ext, scF.names = sc.names ++ ext)
  ∧ (∀ eng sc l r res scF, (interp f).get_dot_val eng sc l r = some (res, scF) →
      ∃ ext, scF.names = sc.names ++ ext)
  ∧ (∀ eng sc l r src res scF, (interp f).set_dot_val eng sc l r src = some (res, scF) →
      ∃ ext, scF.names = sc.names ++ ext)
  ∧ (∀ eng sc s res scF, (interp f).eval_stmt eng sc s = some (res, scF) →
      ∃ ext, scF.names = sc.names ++ ext)
  ∧ (∀ eng sc ss res scF, (interp f).eval_block_stmts eng sc ss = some (res, scF) →
      ∃ ext, scF.names = sc.names ++ ext) := by
  induction f with
  | zero =>
    refine ⟨?_, ?_, ?_, ?_, ?_, ?_, ?_⟩
    · intro eng sc e res scF h; simp [interp] at h
    · intro eng sc es res scF h; simp [interp] at h
    · intro eng sc t rhs res scF tF h; simp [interp] at h
    · intro eng sc l r res scF h; simp [interp] at h
    · intro eng sc l r src res scF h; simp [interp] at h
    · intro eng sc s res scF h; simp [interp] at h
    · intro eng sc ss res scF h; simp [interp] at h
  | succ f ih =>
    obtain ⟨ihE, ihL, ihGH, ihG, ihS, ihSt, ihB⟩ := ih
    refine ⟨?_, ?_, ?_, ?_, ?_, ?_, ?_⟩
    · -- eval_expr
      intro eng sc e res scF h
      cases e with
      | IntConst i => simp only [interp, interpStep] at h; cases h; exact extEq_refl _
      | FloatConst f0 => simp only [interp, interpStep] at h; cases h; exact extEq_refl _
      | StringConst s => simp only [interp, interpStep] at h; cases h; exact extEq_refl _
      | CharConst c => simp only [interp, interpStep] at h; cases h; exact extEq_refl _
      | TrueConst => simp only [interp, interpStep] at h; cases h; exact extEq_refl _
      | FalseConst => simp only [interp, interpStep] at h; cases h; exact extEq_refl _
      | Identifier id =>
        simp only [interp, interpStep] at h
        split at h
        · cases h; exact extEq_refl _
        · split at h
          · exact Option.noConfusion h
          · cases h
            rw [Scope.names_setVal]
            exact extEq_refl _
      | Index id idxRaw =>
        simp only [interp, interpStep] at h
        split at h
        · exact Option.noConfusion h
        · rename_i e1 sc1 hE
          cases h
          exact ihE _ _ _ _ _ hE
        · rename_i idxv sc1 hE
          split at h
          · cases h; exact ihE _ _ _ _ _ hE
          · split at h
            · split at h
              · split at h
                · exact Option.noConfusion h
                · cases h
                  rw [Scope.names_setVal]
                  exact ihE _ _ _ _ _ hE
              · cases h; exact ihE _ _ _ _ _ hE
            · cases h; exact ihE _ _ _ _ _ hE
      | Assignment lhsE rhsE =>
        simp only [interp, interpStep] at h
        split at h
        · exact Option.noConfusion h
        · rename_i e1 sc1 hE
          cases h
          exact ihE _ _ _ _ _ hE
        · rename_i rhsVal sc1 hE
          have h1 := ihE _ _ _ _ _ hE
          split at h
          · split at h
            · cases h
              rw [Scope.names_setVal]
              exact h1
            · cases h; exact h1
          · split at h
            · exact Option.noConfusion h
            · rename_i e2 sc2 hE2
              cases h
              exact extEq_trans h1 (ihE _ _ _ _ _ hE2)
            · rename_i idxv sc2 hE2
              have h2 := extEq_trans h1 (ihE _ _ _ _ _ hE2)
              split at h
              · cases h; exact h2
              · split at h
                · split at h
                  · cases h
                    rw [Scope.names_setVal]
                    exact h2
                  · cases h; exact h2
                · cases h; exact h2
          · exact extEq_trans h1 (ihS _ _ _ _ _ _ _ h)
          · cases h; exact h1
      | Dot lhs rhs =>
        simp only [interp, interpStep] at h
        exact ihG _ _ _ _ _ _ h
      | Array contents =>
        simp only [interp, interpStep] at h
        split at h
        · exact Option.noConfusion h
        · rename_i e1 sc1 hL
          cases h
          exact ihL _ _ _ _ _ hL
        · rename_i vals sc1 hL
          cases h
          exact ihL _ _ _ _ _ hL
      | FnCall name argExprs =>
        simp only [interp, interpStep] at h
        split at h
        · split at h
          · exact Option.noConfusion h
          · rename_i e1 sc1 hL
            cases h
            exact ihL _ _ _ _ _ hL
          · rename_i vals sc1 hL
            split at h
            · exact Option.noConfusion h
            · cases h
              exact ihL _ _ _ _ _ hL
        · cases h; exact extEq_refl _
    · -- eval_expr_list
      intro eng sc es res scF h
      cases es with
      | nil => simp only [interp, interpStep] at h; cases h; exact extEq_refl _
      | cons e rest =>
        simp only [interp, interpStep] at h
        split at h
        · exact Option.noConfusion h
        · rename_i e1 sc1 hE
          cases h
          exact ihE _ _ _ _ _ hE
        · rename_i v sc1 hE
          have h1 := ihE _ _ _ _ _ hE
          split at h
          · exact Option.noConfusion h
          · rename_i e2 sc2 hL
            cases h
            exact extEq_trans h1 (ihL _ _ _ _ _ hL)
          · rename_i vs sc2 hL
            cases h
            exact extEq_trans h1 (ihL _ _ _ _ _ hL)
    · -- get_dot_val_helper
      intro eng sc t rhs res scF tF h
      cases rhs with
      | FnCall name argExprs =>
        simp only [interp, interpStep] at h
        split at h
        · split at h
          · exact Option.noConfusion h
          · rename_i e1 sc1 hL
            cases h
            exact ihL _ _ _ _ _ hL
          · rename_i vals sc1 hL
            split at h
            · exact Option.noConfusion h
            · cases h
              exact ihL _ _ _ _ _ hL
        · cases h; exact extEq_refl _
      | Identifier id =>
        simp only [interp, interpStep] at h
        split at h
        · exact Option.noConfusion h
        · cases h; exact extEq_refl _
      | Index id idxRaw =>
        simp only [interp, interpStep] at h
        split at h
        · exact Option.noConfusion h
        · rename_i e1 sc1 hE
          cases h
          exact ihE _ _ _ _ _ hE
        · rename_i idxv sc1 hE
          have h1 := ihE _ _ _ _ _ hE
          split at h
          · exact Option.noConfusion h
          · cases h; exact h1
          · split at h
            · split at h
              · split at h
                · exact Option.noConfusion h
                · cases h; exact h1
              · cases h; exact h1
            · cases h; exact h1
      | Dot innerLhs innerRhs =>
        simp only [interp, interpStep] at h
        split at h
        · split at h
          · exact Option.noConfusion h
          · cases h; exact extEq_refl _
          · rename_i v args2 hC
            split at h
            · exact Option.noConfusion h
            · rename_i pr hGH
              cases h
              exact ihGH _ _ _ _ _ _ _ hGH
        · cases h; exact extEq_refl _
      | IntConst i => simp only [interp, interpStep] at h; cases h; exact extEq_refl _
      | FloatConst f0 => simp only [interp, interpStep] at h; cases h; exact extEq_refl _
      | StringConst s => simp only [interp, interpStep] at h; cases h; exact extEq_refl _
      | CharConst c => simp only [interp, interpStep] at h; cases h; exact extEq_refl _
      | Assignment a b => simp only [interp, interpStep] at h; cases h; exact extEq_refl _
      | Array a => simp only [interp, interpStep] at h; cases h; exact extEq_refl _
      | TrueConst => simp only [interp, interpStep] at h; cases h; exact extEq_refl _
      | FalseConst => simp only [interp, interpStep] at h; cases h; exact extEq_refl _
    · -- get_dot_val
      intro eng sc l r res scF h
      cases l with
      | Identifier id =>
        simp only [interp, interpStep] at h
        split at h
        · cases h; exact extEq_refl _
        · split at h
          · exact Option.noConfusion h
          · cases h
            rw [Scope.names_setVal]
            exact extEq_refl _
          · rename_i t0 args2 hC
            split at h
            · exact Option.noConfusion h
            · rename_i r1 sc2 t2 hGH
              have h1 : ∃ ext, sc2.names = sc.names ++ ext := by
                have h2 := ihGH _ _ _ _ _ _ _ hGH
                rwa [Scope.names_setVal] at h2
              split at h
              · cases h
                rw [Scope.names_setVal]
                exact h1
              · cases h; exact h1
      | Index id idxRaw =>
        simp only [interp, interpStep] at h
        split at h
        · exact Option.noConfusion h
        · rename_i e1 sc1 hE
          cases h
          exact ihE _ _ _ _ _ hE
        · rename_i idxv sc1 hE
          have h1 := ihE _ _ _ _ _ hE
          split at h
          · split at h
            · cases h; exact h1
            · split at h
              · split at h
                · exact Option.noConfusion h
                · cases h
                  rw [Scope.names_setVal]
                  exact h1
                · rename_i t0 args2 hC
                  split at h
                  · exact Option.noConfusion h
                  · rename_i r1 sc3 t2 hGH
                    have h2 : ∃ ext, sc3.names = sc1.names ++ ext := by
                      have h3 := ihGH _ _ _ _ _ _ _ hGH
                      rwa [Scope.names_setVal] at h3
                    have h3 := extEq_trans h1 h2
                    split at h
                    · split at h
                      · cases h
                        rw [Scope.names_setVal]
                        exact h3
                      · cases h; exact h3
                    · cases h; exact h3
              · cases h; exact h1
          · cases h; exact h1
      | IntConst i => simp only [interp, interpStep] at h; cases h; exact extEq_refl _
      | FloatConst f0 => simp only [interp, interpStep] at h; cases h; exact extEq_refl _
      | StringConst s => simp only [interp, interpStep] at h; cases h; exact extEq_refl _
      | CharConst c => simp only [interp, interpStep] at h; cases h; exact extEq_refl _
      | Assignment a b => simp only [interp, interpStep] at h; cases h; exact extEq_refl _
      | Dot a b => simp only [interp, interpStep] at h; cases h; exact extEq_refl _
      | Array a => simp only [interp, interpStep] at h; cases h; exact extEq_refl _
      | FnCall a b => simp only [interp, interpStep] at h; cases h; exact extEq_refl _
      | TrueConst => simp only [interp, interpStep] at h; cases h; exact extEq_refl _
      | FalseConst => simp only [interp, interpStep] at h; cases h; exact extEq_refl _
    · -- set_dot_val
      intro eng sc l r src res scF h
      cases l with
      | Identifier id =>
        simp only [interp, interpStep] at h
        split at h
        · cases h; exact extEq_refl _
        · split at h
          · exact Option.noConfusion h
          · cases h
            rw [Scope.names_setVal]
            exact extEq_refl _
          · rename_i t0 args2 hC
            split at h
            · exact Option.noConfusion h
            · rename_i r1 t2 hSH
              split at h
              · cases h
                rw [Scope.names_setVal, Scope.names_setVal]
                exact extEq_refl _
              · cases h
                rw [Scope.names_setVal]
                exact extEq_refl _
      | Index id idxRaw =>
        simp only [interp, interpStep] at h
        split at h
        · exact Option.noConfusion h
        · rename_i e1 sc1 hE
          cases h
          exact ihE _ _ _ _ _ hE
        · rename_i idxv sc1 hE
          have h1 := ihE _ _ _ _ _ hE
          split at h
          · split at h
            · cases h; exact h1
            · split at h
              · split at h
                · exact Option.noConfusion h
                · cases h
                  rw [Scope.names_setVal]
                  exact h1
                · rename_i t0 args2 hC
                  split at h
                  · exact Option.noConfusion h
                  · rename_i r1 t2 hSH
                    split at h
                    · split at h
                      · cases h
                        rw [Scope.names_setVal, Scope.names_setVal]
                        exact h1
                      · cases h
                        rw [Scope.names_setVal]
                        exact h1
                    · cases h
                      rw [Scope.names_setVal]
                      exact h1
              · cases h; exact h1
          · cases h; exact h1
      | IntConst i => simp only [interp, interpStep] at h; cases h; exact extEq_refl _
      | FloatConst f0 => simp only [interp, interpStep] at h; cases h; exact extEq_refl _
      | StringConst s => simp only [interp, interpStep] at h; cases h; exact extEq_refl _
      | CharConst c => simp only [interp, interpStep] at h; cases h; exact extEq_refl _
      | Assignment a b => simp only [interp, interpStep] at h; cases h; exact extEq_refl _
      | Dot a b => simp only [interp, interpStep] at h; cases h; exact extEq_refl _
      | Array a => simp only [interp, interpStep] at h; cases h; exact extEq_refl _
      | FnCall a b => simp only [interp, interpStep] at h; cases h; exact extEq_refl _
      | TrueConst => simp only [interp, interpStep] at h; cases h; exact extEq_refl _
      | FalseConst => simp only [interp, interpStep] at h; cases h; exact extEq_refl _
    · -- eval_stmt
      intro eng sc s res scF h
      cases s with
      | Expr e =>
        simp only [interp, interpStep] at h
        exact ihE _ _ _ _ _ h
      | Block b =>
        simp only [interp, interpStep] at h
        split at h
        · exact Option.noConfusion h
        · rename_i r sc1 hB
          cases h
          obtain ⟨ext, hext⟩ := ihB _ _ _ _ _ hB
          refine ⟨[], ?_⟩
          rw [Scope.names_truncateTo, hext, ← Scope.names_length,
            List.take_length_append, List.append_nil]
      | If guard body =>
        simp only [interp, interpStep] at h
        split at h
        · exact Option.noConfusion h
        · rename_i e1 sc1 hE
          cases h
          exact ihE _ _ _ _ _ hE
        · rename_i g sc1 hE
          have h1 := ihE _ _ _ _ _ hE
          split at h
          · exact extEq_trans h1 (ihSt _ _ _ _ _ h)
          · cases h; exact h1
          · cases h; exact h1
      | IfElse guard body els =>
        simp only [interp, interpStep] at h
        split at h
        · exact Option.noConfusion h
        · rename_i e1 sc1 hE
          cases h
          exact ihE _ _ _ _ _ hE
        · rename_i g sc1 hE
          have h1 := ihE _ _ _ _ _ hE
          split at h
          · exact extEq_trans h1 (ihSt _ _ _ _ _ h)
          · exact extEq_trans h1 (ihSt _ _ _ _ _ h)
          · cases h; exact h1
      | While guard body =>
        simp only [interp, interpStep] at h
        split at h
        · exact Option.noConfusion h
        · rename_i e1 sc1 hE
          cases h
          exact ihE _ _ _ _ _ hE
        · rename_i g sc1 hE
          have h1 := ihE _ _ _ _ _ hE
          split at h
          · split at h
            · exact Option.noConfusion h
            · rename_i sc2 hS
              cases h
              exact extEq_trans h1 (ihSt _ _ _ _ _ hS)
            · rename_i e2 sc2 hS
              cases h
              exact extEq_trans h1 (ihSt _ _ _ _ _ hS)
            · rename_i v sc2 hS
              exact extEq_trans (extEq_trans h1 (ihSt _ _ _ _ _ hS)) (ihSt _ _ _ _ _ h)
          · cases h; exact h1
          · cases h; exact h1
      | Loop body =>
        simp only [interp, interpStep] at h
        split at h
        · exact Option.noConfusion h
        · rename_i sc1 hS
          cases h
          exact ihSt _ _ _ _ _ hS
        · rename_i e1 sc1 hS
          cases h
          exact ihSt _ _ _ _ _ hS
        · rename_i v sc1 hS
          exact extEq_trans (ihSt _ _ _ _ _ hS) (ihSt _ _ _ _ _ h)
      | Break => simp only [interp, interpStep] at h; cases h; exact extEq_refl _
      | Return => simp only [interp, interpStep] at h; cases h; exact extEq_refl _
      | ReturnWithVal e =>
        simp only [interp, interpStep] at h
        split at h
        · exact Option.noConfusion h
        · rename_i e1 sc1 hE
          cases h
          exact ihE _ _ _ _ _ hE
        · rename_i v sc1 hE
          cases h
          exact ihE _ _ _ _ _ hE
      | Var name init =>
        cases init with
        | some v =>
          simp only [interp, interpStep] at h
          split at h
          · exact Option.noConfusion h
          · rename_i e1 sc1 hE
            cases h
            exact ihE _ _ _ _ _ hE
          · rename_i iv sc1 hE
            cases h
            obtain ⟨ext, hext⟩ := ihE _ _ _ _ _ hE
            exact ⟨ext ++ [name], by simp [Scope.names_push, hext]⟩
        | none =>
          simp only [interp, interpStep] at h
          cases h
          exact ⟨[name], by simp [Scope.names_push]⟩
    · -- eval_block_stmts
      intro eng sc ss res scF h
      cases ss with
      | nil => simp only [interp, interpStep] at h; cases h; exact extEq_refl _
      | cons s rest =>
        simp only [interp, interpStep] at h
        split at h
        · exact Option.noConfusion h
        · rename_i e1 sc1 hS
          cases h
          exact ihSt _ _ _ _ _ hS
        · rename_i v sc1 hS
          have h1 := ihSt _ _ _ _ _ hS
          split at h
          · cases h; exact h1
          · exact extEq_trans h1 (ihB _ _ _ _ _ h)

theorem eval_expr_scope_ext (f : Nat) (eng : Engine) (sc : Scope) (e : Expr)
    (res : Except EvalAltResult Value) (scF : Scope)
    (h : eval_expr f eng sc e = some (res, scF)) :
    ∃ ext, scF.names = sc.names ++ ext :=
  (interp_scope_ext f).1 eng sc e res scF h

theorem eval_stmt_scope_ext (f : Nat) (eng : Engine) (sc : Scope) (s : Stmt)
    (res : Except EvalAltResult Value) (scF : Scope)
    (h : eval_stmt f eng sc s = some (res, scF)) :
    ∃ ext, scF.names = sc.names ++ ext :=
  (interp_scope_ext f).2.2.2.2.2.1 eng sc s res scF h

theorem eval_block_stmts_scope_ext (f : Nat) (eng : Engine) (sc : Scope)
    (ss : List Stmt) (res : Except EvalAltResult Value) (scF : Scope)
    (h : eval_block_stmts f eng sc ss = some (res, scF)) :
    ∃ ext, scF.names = sc.names ++ ext :=
  (interp_scope_ext f).2.2.2.2.2.2 eng sc ss res scF h

/-- Evaluating a `Block` returns a scope with exactly the entry scope's
binding names: the statement loop only extends the name list, and the final
truncation cuts it back to the recorded entry length. -/
theorem block_names_eq (f : Nat) (eng : Engine) (sc : Scope) (b : List Stmt)
    (res : Except EvalAltResult Value) (scF : Scope)
    (h : eval_stmt f eng sc (.Block b) = some (res, scF)) :
    scF.names = sc.names := by
  cases f with
  | zero => simp [eval_stmt, interp] at h
  | succ f =>
    simp only [eval_stmt, interp, interpStep] at h
    split at h
    · exact Option.noConfusion h
    · rename_i r sc1 hB
      cases h
      obtain ⟨ext, hext⟩ := eval_block_stmts_scope_ext f eng sc b _ _ hB
      rw [Scope.names_truncateTo, hext, ← Scope.names_length, List.take_length_append]


/-! ### Claims -/

/-- C4: For every evaluation of a `Block` statement, the scope length after
evaluation equals the scope length before it, including when a statement
inside the block raises an error or a control-flow signal: the evaluator
records the length at entry and pops bindings until that length is restored
before returning the result. -/
theorem claim_c4_block_scope_integrity (f : Nat) (eng : Engine) (sc : Scope)
    (b : List Stmt) (res : Except EvalAltResult Value) (scF : Scope)
    (h : eval_stmt f eng sc (.Block b) = some (res, scF)) :
    scF.len = sc.len := by
  have h1 := block_names_eq f eng sc b res scF h
  rw [← Scope.names_length, ← Scope.names_length, h1]

/-- Witness for C4: a block that declares a binding and then raises the
`LoopBreak` signal still restores the scope to its entry length. -/
theorem claim_c4_block_scope_integrity_witness :
    eval_stmt 5 (⟨[]⟩ : Engine) ⟨[("a", .VInt 1)]⟩ (.Block [.Var "b" none, .Break])
      = some (.error .LoopBreak, ⟨[("a", .VInt 1)]⟩)
    ∧ (⟨[("a", .VInt 1)]⟩ : Scope).len = (⟨[("a", .VInt 1)]⟩ : Scope).len :=
  ⟨rfl, claim_c4_block_scope_integrity 5 ⟨[]⟩ ⟨[("a", .VInt 1)]⟩
    [.Var "b" none, .Break] (.error .LoopBreak) ⟨[("a", .VInt 1)]⟩ rfl⟩

/-- C8: Name resolution of an identifier proceeds from the end of the
binding sequence toward the beginning, so the most recently pushed binding
with that name wins (part one: `lookupIdx` resolves to the last binding with
the name); and after a block that declared a shadowing variable exits, the
visible binding is the one present before the block (part two: a `Block`
evaluation leaves every name's resolution unchanged). -/
theorem claim_c8_shadowing :
    (∀ (sc : Scope) (id : String) (v : Value) (xs ys : List (String × Value)),
      sc.symbols = xs ++ (id, v) :: ys → (∀ p ∈ ys, p.1 ≠ id) →
      sc.lookupIdx id = some xs.length ∧ sc.getVal xs.length = v)
  ∧ (∀ (f : Nat) (eng : Engine) (sc : Scope) (b : List Stmt)
      (res : Except EvalAltResult Value) (scF : Scope),
      eval_stmt f eng sc (.Block b) = some (res, scF) →
      ∀ n, scF.lookupIdx n = sc.lookupIdx n) := by
  constructor
  · intro sc id v xs ys hsym hys
    constructor
    · rw [Scope.lookupIdx, Scope.names, hsym]
      have hmap : (xs ++ (id, v) :: ys).map Prod.fst
          = xs.map Prod.fst ++ id :: ys.map Prod.fst := by simp
      rw [hmap]
      have hlen : xs.length = (xs.map Prod.fst).length := by simp
      rw [hlen]
      apply lookupIdxNames_append_last
      intro n hn
      obtain ⟨p, hp, rfl⟩ := List.mem_map.mp hn
      exact hys p hp
    · rw [Scope.getVal, hsym, List.getD_append_cons]
  · intro f eng sc b res scF h n
    exact Scope.lookupIdx_congr _ _ _ (block_names_eq f eng sc b res scF h)

/-- Witness for C8: in `[x ↦ 1, x ↦ 2]` the later binding wins; and a block
that shadows `x` leaves the resolution of `x` unchanged after exit. -/
theorem claim_c8_shadowing_witness :
    ((⟨[("x", .VInt 1), ("x", .VInt 2)]⟩ : Scope).lookupIdx "x" = some 1
      ∧ (⟨[("x", .VInt 1), ("x", .VInt 2)]⟩ : Scope).getVal 1 = .VInt 2)
    ∧ (⟨[("x", .VInt 1)]⟩ : Scope).lookupIdx "x" = some 0 := by
  constructor
  · exact claim_c8_shadowing.1 ⟨[("x", .VInt 1), ("x", .VInt 2)]⟩ "x" (.VInt 2)
      [("x", .VInt 1)] [] rfl (fun p hp => absurd hp (List.not_mem_nil p))
  · exact (claim_c8_shadowing.2 5 ⟨[]⟩ ⟨[("x", .VInt 1)]⟩
      [.Var "x" (some (.IntConst 9))] (.ok .VUnit) ⟨[("x", .VInt 1)]⟩ rfl "x").trans rfl

/-- C9: An `Assignment` expression whose left-hand side is an `Identifier`
or an `Index` and that succeeds evaluates to the unit value, not to the
assigned right-hand-side value. -/
theorem claim_c9_assignment_yields_unit (f : Nat) (eng : Engine) (sc : Scope)
    (lhs rhs : Expr) (v : Value) (scF : Scope)
    (hL : (∃ n, lhs = .Identifier n) ∨ ∃ n ie, lhs = .Index n ie)
    (h : eval_expr f eng sc (.Assignment lhs rhs) = some (.ok v, scF)) :
    v = .VUnit := by
  rcases hL with ⟨n, rfl⟩ | ⟨n, ie, rfl⟩ <;>
    (cases f with
     | zero => simp [eval_expr, interp] at h
     | succ f =>
       simp only [eval_expr, interp, interpStep] at h
       repeat' split at h
       all_goals first
         | (cases h; rfl)
         | simp at h)

/-- Witness for C9: assigning to a plain variable yields unit. -/
theorem claim_c9_assignment_yields_unit_witness :
    eval_expr 3 (⟨[]⟩ : Engine) ⟨[("x", .VInt 0)]⟩
      (.Assignment (.Identifier "x") (.IntConst 1))
      = some (.ok .VUnit, ⟨[("x", .VInt 1)]⟩)
    ∧ Value.VUnit = Value.VUnit :=
  ⟨rfl, claim_c9_assignment_yields_unit 3 ⟨[]⟩ ⟨[("x", .VInt 0)]⟩
    (.Identifier "x") (.IntConst 1) .VUnit ⟨[("x", .VInt 1)]⟩
    (Or.inl ⟨"x", rfl⟩) rfl⟩



/-- C1 counterexample: the first Native-1 candidate of "f" fails with
`ErrorIndexMismatch` — a genuine runtime error, not an argument-type
mismatch — yet `call_fn` does not surface it: it retries and returns the
second candidate's `Ok` value.  The claim's "any other error from the
candidate is surfaced immediately" is false of the source, whose
`if let Ok(v) = f(...)` discards every error. -/
theorem claim_c1_counterexample :
    failingNative [.VUnit] = (.error .ErrorIndexMismatch, [.VUnit])
    ∧ call_fn 3 retryEngine "f" [.VUnit] = some (.ok (.VInt 42), [.VUnit]) :=
  ⟨rfl, rfl⟩

/-- C1 (amended): in the candidate loop for a `k`-argument call, a Native
candidate of arity `k` that returns `Ok` ends the dispatch with that value;
a Native candidate of arity `k` that returns any error (the source does not
distinguish an argument-type mismatch from other errors) is skipped and the
loop continues with the remaining candidates (and with the arguments as the
failed candidate left them); a Native candidate of a different arity is
skipped with the arguments untouched. -/
theorem claim_c1_amended :
    (∀ (f : Nat) (eng : Engine) (k : Nat) (g : List Value →
        Except EvalAltResult Value × List Value) (rest : List FnType)
        (args : List Value) (v : Value) (args2 : List Value),
      g args = (.ok v, args2) →
      call_fn_loop (f+1) eng k (.ExternalFn k g :: rest) args = some (.ok v, args2))
  ∧ (∀ (f : Nat) (eng : Engine) (k : Nat) (g : List Value →
        Except EvalAltResult Value × List Value) (rest : List FnType)
        (args : List Value) (e : EvalAltResult) (args2 : List Value),
      g args = (.error e, args2) →
      call_fn_loop (f+1) eng k (.ExternalFn k g :: rest) args
        = call_fn_loop f eng k rest args2)
  ∧ (∀ (f : Nat) (eng : Engine) (k a : Nat) (g : List Value →
        Except EvalAltResult Value × List Value) (rest : List FnType)
        (args : List Value),
      a ≠ k →
      call_fn_loop (f+1) eng k (.ExternalFn a g :: rest) args
        = call_fn_loop f eng k rest args) := by
  refine ⟨?_, ?_, ?_⟩
  · intro f eng k g rest args v args2 hg
    simp only [call_fn_loop, interp, interpStep]
    rw [hg]
    simp
  · intro f eng k g rest args e args2 hg
    simp only [call_fn_loop, interp, interpStep]
    rw [hg]
    simp
  · intro f eng k a g rest args ha
    simp only [call_fn_loop, interp, interpStep]
    simp [ha]

/-- Witness for C1 (amended), at concrete candidates of arity 1. -/
theorem claim_c1_amended_witness :
    call_fn_loop 1 retryEngine 1 [.ExternalFn 1 okNative] [.VUnit]
      = some (.ok (.VInt 42), [.VUnit])
    ∧ call_fn_loop 1 retryEngine 1 [.ExternalFn 1 failingNative] [.VUnit]
      = call_fn_loop 0 retryEngine 1 [] [.VUnit]
    ∧ call_fn_loop 1 retryEngine 1 [.ExternalFn 2 okNative] [.VUnit]
      = call_fn_loop 0 retryEngine 1 [] [.VUnit] :=
  ⟨claim_c1_amended.1 0 retryEngine 1 okNative [] [.VUnit] (.VInt 42) [.VUnit] rfl,
   claim_c1_amended.2.1 0 retryEngine 1 failingNative [] [.VUnit] .ErrorIndexMismatch
     [.VUnit] rfl,
   claim_c1_amended.2.2 0 retryEngine 1 2 okNative [] [.VUnit] (by decide)⟩

/-- C5 counterexample: a parse tree with a 7-parameter function followed by
a 0-parameter function and one statement.  `consume_with_scope` returns
`Ok(())` at the 7-parameter function: it does not install the following
function (the engine still resolves nothing under "small") and does not
evaluate the statements (the scope stays empty), contradicting the claim
that it skips such functions while installing the others and evaluating the
statements. -/
theorem claim_c5_counterexample :
    consume_with_scope 5 (⟨[]⟩ : Engine) ⟨[]⟩ ([.Var "q" none], [bigFn, smallFn])
      = some (.ok (), ⟨[]⟩, ⟨[]⟩)
    ∧ Engine.lookup ⟨[]⟩ "small" = none :=
  ⟨rfl, rfl⟩

/-- C5 (amended): `eval_with_scope` rejects a parse tree containing a
function of more than six parameters with `ErrorFunctionArityNotSupported`
(functions before the offender are already installed); `consume_with_scope`
instead returns `Ok(())` at the first such function, keeping only the
functions that precede it and evaluating no statement at all. -/
theorem claim_c5_amended :
    (∀ (f : Nat) (eng : Engine) (sc : Scope) (os : List Stmt) (fns : List FnDef),
      (∃ g ∈ fns, 6 < g.params.length) →
      ∃ eng1, eval_with_scope f eng sc (os, fns)
        = some (.error .ErrorFunctionArityNotSupported, eng1, sc))
  ∧ (∀ (f : Nat) (eng : Engine) (sc : Scope) (os : List Stmt)
      (pre : List FnDef) (g : FnDef) (post : List FnDef),
      (∀ p ∈ pre, p.params.length ≤ 6) → 6 < g.params.length →
      consume_with_scope f eng sc (os, pre ++ g :: post)
        = some (.ok (), pre.foldl Engine.installFn eng, sc)) := by
  constructor
  · intro f eng sc os fns hex
    have key : ∀ (fns : List FnDef) (eng : Engine), (∃ g ∈ fns, 6 < g.params.length) →
        ∃ eng1, install_fns eng fns = (eng1, some .ErrorFunctionArityNotSupported) := by
      intro fns
      induction fns with
      | nil => intro eng h; obtain ⟨g, hg, _⟩ := h; cases hg
      | cons fd rest ih =>
        intro eng h
        by_cases hfd : 6 < fd.params.length
        · exact ⟨eng, by simp [install_fns, hfd]⟩
        · obtain ⟨g, hg, hglen⟩ := h
          have hgr : g ∈ rest := by
            cases hg with
            | head => exact absurd hglen hfd
            | tail _ hm => exact hm
          obtain ⟨eng1, h1⟩ := ih (eng.installFn fd) ⟨g, hgr, hglen⟩
          exact ⟨eng1, by simp [install_fns, hfd, h1]⟩
    obtain ⟨eng1, h1⟩ := key fns eng hex
    exact ⟨eng1, by simp [eval_with_scope, h1]⟩
  · intro f eng sc os pre g post hpre hg
    have key : ∀ (pre : List FnDef) (eng : Engine), (∀ p ∈ pre, p.params.length ≤ 6) →
        install_fns_consume eng (pre ++ g :: post)
          = (pre.foldl Engine.installFn eng, true) := by
      intro pre
      induction pre with
      | nil => intro eng _; simp [install_fns_consume, Nat.lt_irrefl, hg]
      | cons fd rest ih =>
        intro eng hp
        have hfd : ¬ 6 < fd.params.length := by
          have := hp fd (by simp)
          omega
        simp [install_fns_consume, hfd, ih (eng.installFn fd) (fun p hm => hp p (by simp [hm]))]
    simp [consume_with_scope, key pre eng hpre]

/-- Witness for C5 (amended), at a concrete tree containing `bigFn`. -/
theorem claim_c5_amended_witness :
    (∃ eng1, eval_with_scope 1 (⟨[]⟩ : Engine) ⟨[]⟩ ([.Var "q" none], [bigFn])
      = some (.error .ErrorFunctionArityNotSupported, eng1, ⟨[]⟩))
    ∧ consume_with_scope 1 (⟨[]⟩ : Engine) ⟨[]⟩ ([.Var "q" none], [bigFn, smallFn])
      = some (.ok (), ⟨[]⟩, ⟨[]⟩) :=
  ⟨claim_c5_amended.1 1 ⟨[]⟩ ⟨[]⟩ [.Var "q" none] [bigFn]
      ⟨bigFn, by simp, by decide⟩,
   claim_c5_amended.2 1 ⟨[]⟩ ⟨[]⟩ [.Var "q" none] [] bigFn [smallFn]
      (fun p hp => absurd hp (List.not_mem_nil p)) (by decide)⟩

/-- C6 counterexample: a top-level `break` (and a top-level `return`)
escapes `eval_with_scope` and `consume_with_scope` as the `LoopBreak` /
`Return` signal on the error channel, so the signals do reach the user from
a top-level evaluation, contradicting "never escape". -/
theorem claim_c6_counterexample :
    eval_with_scope 2 (⟨[]⟩ : Engine) ⟨[]⟩ ([.Break], [])
      = some (.error .LoopBreak, ⟨[]⟩, ⟨[]⟩)
    ∧ eval_with_scope 2 (⟨[]⟩ : Engine) ⟨[]⟩ ([.Return], [])
      = some (.error (.Return .VUnit), ⟨[]⟩, ⟨[]⟩)
    ∧ consume_with_scope 2 (⟨[]⟩ : Engine) ⟨[]⟩ ([.Break], [])
      = some (.error .LoopBreak, ⟨[]⟩, ⟨[]⟩) :=
  ⟨rfl, rfl, rfl⟩

/-- C6 (amended): `LoopBreak` is consumed by the nearest enclosing `While` /
`Loop` (which terminate with unit), and `Return x` is consumed by the
nearest enclosing script-function call (which returns `x`); but when no
loop or script call encloses them, the signals escape a top-level
evaluation to the caller of `eval_with_scope` / `consume_with_scope` as the
`LoopBreak` / `Return` error values. -/
theorem claim_c6_amended :
    (∀ (f : Nat) (eng : Engine) (sc sc1 : Scope) (body : Stmt),
      eval_stmt f eng sc body = some (.error .LoopBreak, sc1) →
      eval_stmt (f+1) eng sc (.Loop body) = some (.ok .VUnit, sc1))
  ∧ (∀ (f : Nat) (eng : Engine) (sc sc1 sc2 : Scope) (guard : Expr) (body : Stmt),
      eval_expr f eng sc guard = some (.ok (.VBool true), sc1) →
      eval_stmt f eng sc1 body = some (.error .LoopBreak, sc2) →
      eval_stmt (f+1) eng sc (.While guard body) = some (.ok .VUnit, sc2))
  ∧ (∀ (f : Nat) (eng : Engine) (k : Nat) (fd : FnDef) (args cloned args2 : List Value)
      (x : Value) (scF : Scope),
      fd.params.length = k →
      clone_args f eng args = some (.ok cloned, args2) →
      eval_stmt f eng ⟨fd.params.zip cloned⟩ fd.body = some (.error (.Return x), scF) →
      call_fn_loop (f+1) eng k [.InternalFn fd] args = some (.ok x, args2))
  ∧ eval_with_scope 2 (⟨[]⟩ : Engine) ⟨[]⟩ ([.Break], [])
      = some (.error .LoopBreak, ⟨[]⟩, ⟨[]⟩)
  ∧ eval_with_scope 2 (⟨[]⟩ : Engine) ⟨[]⟩ ([.Return], [])
      = some (.error (.Return .VUnit), ⟨[]⟩, ⟨[]⟩) := by
  refine ⟨?_, ?_, ?_, rfl, rfl⟩
  · intro f eng sc sc1 body h
    simp only [eval_stmt, interp, interpStep] at h ⊢
    rw [h]
  · intro f eng sc sc1 sc2 guard body hg hb
    simp only [eval_expr, eval_stmt, interp, interpStep] at hg hb ⊢
    simp only [hg, hb]
  · intro f eng k fd args cloned args2 x scF hk hc hb
    simp only [clone_args, eval_stmt, call_fn_loop, interp, interpStep] at hc hb ⊢
    rw [← hk]
    simp only [bne_self_eq_false, Bool.false_eq_true, if_false]
    simp only [hc, hb]

/-- Witness for C6 (amended), at concrete loops and a concrete script call. -/
theorem claim_c6_amended_witness :
    eval_stmt 2 (⟨[]⟩ : Engine) ⟨[]⟩ (.Loop .Break) = some (.ok .VUnit, ⟨[]⟩)
    ∧ eval_stmt 3 stdEngine ⟨[]⟩ (.While .TrueConst .Break) = some (.ok .VUnit, ⟨[]⟩)
    ∧ call_fn_loop 6 stdEngine 1 [.InternalFn idFn] [.VInt 7]
      = some (.ok (.VInt 7), [.VInt 7]) :=
  ⟨claim_c6_amended.1 1 ⟨[]⟩ ⟨[]⟩ ⟨[]⟩ .Break rfl,
   claim_c6_amended.2.1 2 stdEngine ⟨[]⟩ ⟨[]⟩ ⟨[]⟩ .TrueConst .Break rfl rfl,
   claim_c6_amended.2.2.1 5 stdEngine 1 idFn [.VInt 7] [.VInt 7] [.VInt 7] (.VInt 7)
     ⟨[("a", .VInt 7)]⟩ rfl rfl rfl⟩



/-- C2: dispatch to a Script (`InternalFn`) candidate with `k` arguments:
if the candidate's parameter count differs from `k` the call returns the
argument-mismatch error at once; otherwise every argument is cloned through
the registered "clone" function (`clone_args`), a fresh scope holding
exactly the parameter-name/cloned-argument pairs is built, the body is
evaluated in it, and a `Return x` signal from the body becomes the call's
`Ok x` while any other body outcome is returned as is (so a normal
completion returns the body's last-statement value). -/
theorem claim_c2_script_call (f : Nat) (eng : Engine) (k : Nat) (fd : FnDef)
    (rest : List FnType) (args : List Value) :
    (fd.params.length ≠ k →
      call_fn_loop (f+1) eng k (.InternalFn fd :: rest) args
        = some (.error .ErrorFunctionArgMismatch, args))
  ∧ (∀ (cloned args2 : List Value) (res : Except EvalAltResult Value) (scF : Scope),
      fd.params.length = k →
      clone_args f eng args = some (.ok cloned, args2) →
      eval_stmt f eng ⟨fd.params.zip cloned⟩ fd.body = some (res, scF) →
      call_fn_loop (f+1) eng k (.InternalFn fd :: rest) args
        = some ((match res with
                 | .error (.Return x) => .ok x
                 | r => r), args2)) := by
  constructor
  · intro hk
    have hb : (fd.params.length != k) = true := by simpa using hk
    simp only [call_fn_loop, interp, interpStep, hb, if_true]
  · intro cloned args2 res scF hk hc hb
    subst hk
    simp only [clone_args, eval_stmt] at hc hb
    simp only [call_fn_loop, interp, interpStep, bne_self_eq_false, Bool.false_eq_true,
      if_false, hc, hb]
    cases res with
    | ok v => rfl
    | error e => cases e <;> rfl

/-- Witness for C2: calling the script identity function with one argument
returns the argument; calling it with two returns the mismatch error. -/
theorem claim_c2_script_call_witness :
    call_fn_loop 6 stdEngine 2 [.InternalFn idFn] [.VInt 1, .VInt 2]
      = some (.error .ErrorFunctionArgMismatch, [.VInt 1, .VInt 2])
    ∧ call_fn_loop 6 stdEngine 1 [.InternalFn idFn] [.VInt 7]
      = some (.ok (.VInt 7), [.VInt 7]) :=
  ⟨(claim_c2_script_call 5 stdEngine 2 idFn [] [.VInt 1, .VInt 2]).1 (by decide),
   (claim_c2_script_call 5 stdEngine 1 idFn [] [.VInt 7]).2 [.VInt 7] [.VInt 7]
     (.error (.Return (.VInt 7))) ⟨[("a", .VInt 7)]⟩ rfl rfl rfl⟩

/-- C7: `Index(id, e)` evaluation, given that the index expression evaluated
to `w` and the scan finds binding `bi` for `id`: a non-`i64` `w` yields
`IndexMismatch`; an `i64` `w` over a binding that is not an array yields
`IndexMismatch`; and an `i64` `w` over an array binding (for an in-range,
non-negative index) returns the result of cloning the selected element
through the registered "clone" function (the binding is updated with the
element as the clone call left it, modelling the `&mut` borrow). -/
theorem claim_c7_index_eval (f : Nat) (eng : Engine) (sc : Scope) (id : String)
    (e : Expr) (w : Value) (sc1 : Scope) (bi : Nat)
    (hE : eval_expr f eng sc e = some (.ok w, sc1))
    (hB : sc1.lookupIdx id = some bi) :
    ((∀ n, w ≠ .VInt n) →
      eval_expr (f+1) eng sc (.Index id e) = some (.error .ErrorIndexMismatch, sc1))
  ∧ (∀ n, w = .VInt n → (∀ arr, sc1.getVal bi ≠ .VArr arr) →
      eval_expr (f+1) eng sc (.Index id e) = some (.error .ErrorIndexMismatch, sc1))
  ∧ (∀ (n : Int) (arr : List Value) (res : Except EvalAltResult Value)
      (cargs : List Value),
      w = .VInt n → sc1.getVal bi = .VArr arr → 0 ≤ n → n.toNat < arr.length →
      call_fn f eng "clone" [arr.getD n.toNat .VUnit] = some (res, cargs) →
      eval_expr (f+1) eng sc (.Index id e)
        = some (res, sc1.setVal bi
            (.VArr (arr.set n.toNat (cargs.headD (arr.getD n.toNat .VUnit)))))) := by
  simp only [eval_expr, call_fn] at hE ⊢
  refine ⟨?_, ?_, ?_⟩
  · intro hne
    simp only [interp, interpStep, hE, hB]
  · rintro n rfl hgv
    simp only [interp, interpStep, hE, hB]
  · rintro n arr res cargs rfl hgv hnn hlt hcl
    simp only [interp, interpStep, hE, hB, hgv, hcl]

/-- Witness for C7, on `a[1]` over `a ↦ [10, 20]` with the identity clone:
the read returns `20`, and mismatch cases return `IndexMismatch`. -/
theorem claim_c7_index_eval_witness :
    eval_expr 6 stdEngine ⟨[("a", .VArr [.VInt 10, .VInt 20])]⟩ (.Index "a" .TrueConst)
      = some (.error .ErrorIndexMismatch, ⟨[("a", .VArr [.VInt 10, .VInt 20])]⟩)
    ∧ eval_expr 6 stdEngine ⟨[("a", .VInt 3)]⟩ (.Index "a" (.IntConst 1))
      = some (.error .ErrorIndexMismatch, ⟨[("a", .VInt 3)]⟩)
    ∧ eval_expr 6 stdEngine ⟨[("a", .VArr [.VInt 10, .VInt 20])]⟩
        (.Index "a" (.IntConst 1))
      = some (.ok (.VInt 20), ⟨[("a", .VArr [.VInt 10, .VInt 20])]⟩) :=
  ⟨(claim_c7_index_eval 5 stdEngine ⟨[("a", .VArr [.VInt 10, .VInt 20])]⟩ "a"
      .TrueConst (.VBool true) ⟨[("a", .VArr [.VInt 10, .VInt 20])]⟩ 0 rfl rfl).1
      (fun n h => Value.noConfusion h),
   (claim_c7_index_eval 5 stdEngine ⟨[("a", .VInt 3)]⟩ "a" (.IntConst 1) (.VInt 1)
      ⟨[("a", .VInt 3)]⟩ 0 rfl rfl).2.1 1 rfl
      (fun arr h => Value.noConfusion h),
   (claim_c7_index_eval 5 stdEngine ⟨[("a", .VArr [.VInt 10, .VInt 20])]⟩ "a"
      (.IntConst 1) (.VInt 1) ⟨[("a", .VArr [.VInt 10, .VInt 20])]⟩ 0 rfl rfl).2.2
      1 [.VInt 10, .VInt 20] (.ok (.VInt 20)) [.VInt 20] rfl rfl (by decide)
      (by decide) rfl⟩

/-- C3: dotted assignment write-back.  Part one: a dotted set rooted at an
`Identifier` scope binding clones the root value, runs the set on the
clone, and — when the set completes — writes the mutated clone back into
the binding slot.  Part two: a dotted set rooted at an `Index` expression
clones the selected array element, runs the set on the clone, and writes
the mutated clone back into that array element of the binding.  Part
three: a nested `Dot` chain is copy-on-write: the intermediate is fetched
via `get$m`, the set recurses on it, and the result is written back via
`set$m`.  Parts four to seven (end-to-end): after `x.y.z = 7`, reading
`x.y.z` returns `7`; and after `a[0].y = 7`, reading `a[0].y` returns `7`. -/
theorem claim_c3_dotted_set_writeback :
    (∀ (f : Nat) (eng : Engine) (sc : Scope) (id : String) (rhs : Expr) (src : Value)
      (i : Nat) (t : Value) (cargs : List Value) (w t2 : Value),
      sc.lookupIdx id = some i →
      call_fn f eng "clone" [sc.getVal i] = some (.ok t, cargs) →
      set_dot_val_helper f eng t rhs src = some (.ok w, t2) →
      set_dot_val (f+1) eng sc (.Identifier id) rhs src
        = some (.ok w, (sc.setVal i (cargs.headD (sc.getVal i))).setVal i t2))
  ∧ (∀ (f : Nat) (eng : Engine) (sc : Scope) (id : String) (idxRaw rhs : Expr)
      (src : Value) (n : Int) (sc1 : Scope) (i : Nat) (arr : List Value)
      (t : Value) (cargs : List Value) (w t2 : Value) (j : Nat) (arr2 : List Value),
      eval_expr f eng sc idxRaw = some (.ok (.VInt n), sc1) →
      sc1.lookupIdx id = some i →
      sc1.getVal i = .VArr arr →
      call_fn f eng "clone" [arr.getD n.toNat .VUnit] = some (.ok t, cargs) →
      set_dot_val_helper f eng t rhs src = some (.ok w, t2) →
      (sc1.setVal i (.VArr (arr.set n.toNat
        (cargs.headD (arr.getD n.toNat .VUnit))))).lookupIdxArr id = some j →
      (sc1.setVal i (.VArr (arr.set n.toNat
        (cargs.headD (arr.getD n.toNat .VUnit))))).getVal j = .VArr arr2 →
      set_dot_val (f+1) eng sc (.Index id idxRaw) rhs src
        = some (.ok w, (sc1.setVal i (.VArr (arr.set n.toNat
            (cargs.headD (arr.getD n.toNat .VUnit))))).setVal j
              (.VArr (arr2.set n.toNat t2))))
  ∧ (∀ (f : Nat) (eng : Engine) (t : Value) (m : String) (rest : Expr) (src v : Value)
      (ga : List Value) (w v2 : Value) (r2 : Except EvalAltResult Value)
      (sa : List Value),
      call_fn f eng ("get$" ++ m) [t] = some (.ok v, ga) →
      set_dot_val_helper f eng v rest src = some (.ok w, v2) →
      call_fn f eng ("set$" ++ m) [ga.headD t, v2] = some (r2, sa) →
      set_dot_val_helper (f+1) eng t (.Dot (.Identifier m) rest) src
        = some (r2, sa.headD (ga.headD t)))
  ∧ eval_expr 30 objEngine dotScope
      (.Assignment (.Dot (.Identifier "x") (.Dot (.Identifier "y") (.Identifier "z")))
        (.IntConst 7))
      = some (.ok .VUnit, dotScopeAfter)
  ∧ eval_expr 30 objEngine dotScopeAfter
      (.Dot (.Identifier "x") (.Dot (.Identifier "y") (.Identifier "z")))
      = some (.ok (.VInt 7), dotScopeAfter)
  ∧ eval_expr 30 objEngine ⟨[("a", .VArr [.VObj [("y", .VInt 0)]])]⟩
      (.Assignment (.Dot (.Index "a" (.IntConst 0)) (.Identifier "y")) (.IntConst 7))
      = some (.ok .VUnit, ⟨[("a", .VArr [.VObj [("y", .VInt 7)]])]⟩)
  ∧ eval_expr 30 objEngine ⟨[("a", .VArr [.VObj [("y", .VInt 7)]])]⟩
      (.Dot (.Index "a" (.IntConst 0)) (.Identifier "y"))
      = some (.ok (.VInt 7), ⟨[("a", .VArr [.VObj [("y", .VInt 7)]])]⟩) := by
  refine ⟨?_, ?_, ?_, rfl, rfl, rfl, rfl⟩
  · intro f eng sc id rhs src i t cargs w t2 hB hcl hsh
    simp only [call_fn] at hcl
    simp only [set_dot_val_helper] at hsh
    simp only [set_dot_val, interp, interpStep, hB, hcl, hsh, Scope.lookupIdx_setVal]
  · intro f eng sc id idxRaw rhs src n sc1 i arr t cargs w t2 j arr2
      hIdx hB hArr hcl hsh hB2 hArr2
    simp only [eval_expr] at hIdx
    simp only [call_fn] at hcl
    simp only [set_dot_val_helper] at hsh
    simp only [set_dot_val, interp, interpStep, hIdx, hB, hArr, hcl, hsh, hB2, hArr2]
  · intro f eng t m rest src v ga w v2 r2 sa hget hsh hset
    simp only [call_fn] at hget hset
    simp only [set_dot_val_helper] at hsh
    simp only [set_dot_val_helper, interp, interpStep, hget, hsh, hset]

/-- Witness for C3, through the `VObj` accessors engine: an
`Identifier`-rooted set, an `Index`-rooted set (write-back into the array
element), and the nested `Dot` helper, all at concrete inputs. -/
theorem claim_c3_dotted_set_writeback_witness :
    set_dot_val 11 objEngine dotScope (.Identifier "x")
      (.Dot (.Identifier "y") (.Identifier "z")) (.VInt 7)
      = some (.ok .VUnit, dotScopeAfter)
    ∧ set_dot_val 11 objEngine ⟨[("a", .VArr [.VObj [("y", .VInt 0)]])]⟩
        (.Index "a" (.IntConst 0)) (.Identifier "y") (.VInt 7)
      = some (.ok .VUnit, ⟨[("a", .VArr [.VObj [("y", .VInt 7)]])]⟩)
    ∧ set_dot_val_helper 11 objEngine (.VObj [("y", .VObj [("z", .VInt 0)])])
        (.Dot (.Identifier "y") (.Identifier "z")) (.VInt 7)
      = some (.ok .VUnit, .VObj [("y", .VObj [("z", .VInt 7)])]) := by
  refine ⟨?_, ?_, ?_⟩
  · have h := claim_c3_dotted_set_writeback.1 10 objEngine dotScope "x"
      (.Dot (.Identifier "y") (.Identifier "z")) (.VInt 7) 0
      (.VObj [("y", .VObj [("z", .VInt 0)])]) [.VObj [("y", .VObj [("z", .VInt 0)])]]
      .VUnit (.VObj [("y", .VObj [("z", .VInt 7)])]) rfl rfl rfl
    exact h
  · have h := claim_c3_dotted_set_writeback.2.1 10 objEngine
      ⟨[("a", .VArr [.VObj [("y", .VInt 0)]])]⟩ "a" (.IntConst 0) (.Identifier "y")
      (.VInt 7) 0 ⟨[("a", .VArr [.VObj [("y", .VInt 0)]])]⟩ 0
      [.VObj [("y", .VInt 0)]] (.VObj [("y", .VInt 0)]) [.VObj [("y", .VInt 0)]]
      .VUnit (.VObj [("y", .VInt 7)]) 0 [.VObj [("y", .VInt 0)]]
      rfl rfl rfl rfl rfl rfl rfl
    exact h
  · have h := claim_c3_dotted_set_writeback.2.2.1 10 objEngine
      (.VObj [("y", .VObj [("z", .VInt 0)])]) "y" (.Identifier "z") (.VInt 7)
      (.VObj [("z", .VInt 0)]) [.VObj [("y", .VObj [("z", .VInt 0)])]]
      .VUnit (.VObj [("z", .VInt 7)]) (.ok .VUnit)
      [.VObj [("y", .VObj [("z", .VInt 7)])], .VObj [("z", .VInt 7)]] rfl rfl rfl
    exact h

/-- C10: dotted get and set on an `Identifier`-rooted binding are not atomic
on error.  Part one: when the inner set helper fails, `set_dot_val` still
writes the (possibly mutated) clone back into the binding before returning
the error.  Part two: the same for `get_dot_val`.  Part three: concretely,
with a receiver-mutating `get$y` and no registered `set$z`, the failing
assignment `x.y.z = 7` reports `ErrorFunctionNotFound` yet leaves the
binding of `x` changed to the mutated value. -/
theorem claim_c10_dotted_error_writeback :
    (∀ (f : Nat) (eng : Engine) (sc : Scope) (id : String) (rhs : Expr) (src : Value)
      (i : Nat) (t : Value) (cargs : List Value) (e : EvalAltResult) (t2 : Value),
      sc.lookupIdx id = some i →
      call_fn f eng "clone" [sc.getVal i] = some (.ok t, cargs) →
      set_dot_val_helper f eng t rhs src = some (.error e, t2) →
      set_dot_val (f+1) eng sc (.Identifier id) rhs src
        = some (.error e, (sc.setVal i (cargs.headD (sc.getVal i))).setVal i t2))
  ∧ (∀ (f : Nat) (eng : Engine) (sc : Scope) (id : String) (rhs : Expr)
      (i : Nat) (t : Value) (cargs : List Value) (e : EvalAltResult)
      (sc2 : Scope) (t2 : Value) (j : Nat),
      sc.lookupIdx id = some i →
      call_fn f eng "clone" [sc.getVal i] = some (.ok t, cargs) →
      get_dot_val_helper f eng (sc.setVal i (cargs.headD (sc.getVal i))) t rhs
        = some (.error e, sc2, t2) →
      sc2.lookupIdx id = some j →
      get_dot_val (f+1) eng sc (.Identifier id) rhs
        = some (.error e, sc2.setVal j t2))
  ∧ set_dot_val 20 mutEngine ⟨[("x", .VObj [("y", .VObj [])])]⟩ (.Identifier "x")
      (.Dot (.Identifier "y") (.Identifier "z")) (.VInt 7)
      = some (.error .ErrorFunctionNotFound, ⟨[("x", .VInt 99)]⟩) := by
  refine ⟨?_, ?_, rfl⟩
  · intro f eng sc id rhs src i t cargs e t2 hB hcl hsh
    simp only [call_fn] at hcl
    simp only [set_dot_val_helper] at hsh
    simp only [set_dot_val, interp, interpStep, hB, hcl, hsh, Scope.lookupIdx_setVal]
  · intro f eng sc id rhs i t cargs e sc2 t2 j hB hcl hgh hB2
    simp only [call_fn] at hcl
    simp only [get_dot_val_helper] at hgh
    simp only [get_dot_val, interp, interpStep, hB, hcl, hgh, hB2]

/-- Witness for C10, through the receiver-mutating engine: the set and the
get both fail with `ErrorFunctionNotFound` yet overwrite the binding of `x`
with the mutated receiver `VInt 99`. -/
theorem claim_c10_dotted_error_writeback_witness :
    set_dot_val 11 mutEngine ⟨[("x", .VObj [("y", .VObj [])])]⟩ (.Identifier "x")
      (.Dot (.Identifier "y") (.Identifier "z")) (.VInt 7)
      = some (.error .ErrorFunctionNotFound, ⟨[("x", .VInt 99)]⟩)
    ∧ get_dot_val 11 mutEngine ⟨[("x", .VObj [("y", .VObj [])])]⟩ (.Identifier "x")
      (.Dot (.Identifier "y") (.Identifier "z"))
      = some (.error .ErrorFunctionNotFound, ⟨[("x", .VInt 99)]⟩) := by
  constructor
  · have h := claim_c10_dotted_error_writeback.1 10 mutEngine
      ⟨[("x", .VObj [("y", .VObj [])])]⟩ "x" (.Dot (.Identifier "y") (.Identifier "z"))
      (.VInt 7) 0 (.VObj [("y", .VObj [])]) [.VObj [("y", .VObj [])]]
      .ErrorFunctionNotFound (.VInt 99) rfl rfl rfl
    exact h
  · have h := claim_c10_dotted_error_writeback.2.1 10 mutEngine
      ⟨[("x", .VObj [("y", .VObj [])])]⟩ "x" (.Dot (.Identifier "y") (.Identifier "z"))
      0 (.VObj [("y", .VObj [])]) [.VObj [("y", .VObj [])]]
      .ErrorFunctionNotFound ⟨[("x", .VObj [("y", .VObj [])])]⟩ (.VInt 99) 0
      rfl rfl rfl rfl
    exact h

end Rhai
